import Mathlib

/-!
Shallow embedding of `scripts/log_dashboard.py`, a Flask dashboard that
discovers per-repository log files, parses each into a record with a derived
status, and aggregates global statistics.

Modelling conventions:
- Python values coming out of `json.load` are modelled by the inductive `Json`.
- Filesystem reads are modelled by an `Except ReadError String` stored per file
  (the outcome of `open(path).read()` together with the `stat` calls of the
  same `try` block); the formatted mtime and the size are carried alongside.
- Python exceptions escaping a function are modelled by `Except PyError`.
- Python string comparison (used by `sorted(..., reverse=True)`) is
  lexicographic on code points; `charListLt` models it on `String.data`.
  The paths sorted by the source share the common prefix `log_dir/repo/`,
  so sorting full paths coincides with sorting base names.
- `glob('*.log')` matches names ending in `.log` that do not start with a dot.
-/

/-- Python-level JSON values, as returned by `json.load`. -/
inductive Json where
  | null
  | bool (b : Bool)
  | num (n : Int)
  | str (s : String)
  | arr (elems : List Json)
  | obj (fields : List (String × Json))

/-- Failure modes of opening/reading/stat-ing a file inside a `try` block. -/
inductive ReadError where
  | fileNotFound (path : String)
  | permissionDenied (path : String)
  | decodeError (path : String)

/-- The `str(e)` rendering of a read failure, as Python produces it. -/
def ReadError.message : ReadError → String
  | .fileNotFound p => "[Errno 2] No such file or directory: " ++ p
  | .permissionDenied p => "[Errno 13] Permission denied: " ++ p
  | .decodeError p => "utf-8 codec cannot decode: " ++ p

/-- A Python exception escaping one of the dashboard functions. -/
inductive PyError where
  | typeError (msg : String)
  | keyError (key : String)
  | ioError (e : ReadError)

/-- The `CONFIG['repos_file']` constant of the source. -/
def CONFIG_repos_file : String := "/etc/ansible/playbooks/repos.json"

/-- The `CONFIG['log_dir']` constant of the source. -/
def CONFIG_log_dir : String := "/etc/ansible/playbooks/logs"

/-- One directory entry for a repository's log directory: its base name, the
outcome of reading it (content, or the exception raised), and the stat data
(`mtime` already formatted, and byte size). -/
structure LogFileEnt where
  name : String
  readResult : Except ReadError String
  mtimeStr : String
  size : Nat

/-- State of the `repos.json` descriptor file: absent (`FileNotFoundError`),
unreadable (`PermissionError`), present but not JSON (`JSONDecodeError`), or
valid JSON with the parsed value. -/
inductive DescriptorState where
  | missing
  | permissionDenied
  | invalidJson
  | validJson (v : Json)

/-- The filesystem as the dashboard sees it: the descriptor file plus, for each
existing repository subdirectory of `log_dir`, its directory entries. -/
structure FS where
  descriptor : DescriptorState
  dirs : List (String × List LogFileEnt)

/-- Prefix test on code-point lists (comparing by `==` on `Char`). -/
def isPrefixCL : List Char → List Char → Bool
  | [], _ => true
  | _ :: _, [] => false
  | a :: as, b :: bs => a == b && isPrefixCL as bs

/-- Substring occurrence on code-point lists. -/
def hasInfixCL (pat : List Char) : List Char → Bool
  | [] => pat.isEmpty
  | c :: rest => isPrefixCL pat (c :: rest) || hasInfixCL pat rest

/-- The Python expression `needle in haystack` on strings. -/
def pyInStr (needle haystack : String) : Bool :=
  hasInfixCL needle.data haystack.data

/-- Strict lexicographic comparison of code-point lists: Python string `<`. -/
def charListLt : List Char → List Char → Bool
  | _, [] => false
  | [], _ :: _ => true
  | a :: as, b :: bs => if a == b then charListLt as bs else decide (a.toNat < b.toNat)

/-- Insert an entry into a list kept in descending name order, placing it
before the first entry it is not below (the stable descending order produced
by `sorted(..., reverse=True)`). -/
def insertDesc (x : LogFileEnt) : List LogFileEnt → List LogFileEnt
  | [] => [x]
  | y :: ys => if charListLt x.name.data y.name.data then y :: insertDesc x ys else x :: y :: ys

/-- Sorting in descending name order, modelling `sorted(paths, reverse=True)`
on paths that share the directory prefix. -/
def sortDescByName : List LogFileEnt → List LogFileEnt
  | [] => []
  | x :: xs => insertDesc x (sortDescByName xs)

/-- The `glob('*.log')` pattern on a base name: ends in `.log` and, because a
glob pattern without a leading dot never matches a hidden file, does not start
with a dot. -/
def globMatchesLog (name : String) : Bool :=
  List.isSuffixOf ".log".data name.data && !(List.isPrefixOf ".".data name.data)

/-- Lookup of a repository's subdirectory under `log_dir`; `none` models a
path for which `os.path.exists` is false. -/
def lookupDir : List (String × List LogFileEnt) → String → Option (List LogFileEnt)
  | [], _ => none
  | (n, entries) :: rest, repo => if n = repo then some entries else lookupDir rest repo

/-- The record built by `parse_log_file`: a Python dict whose optional fields
model keys that are present only on one branch. -/
structure LogRecord where
  filename : String
  timestamp : Option String
  size : Option Nat
  content : Option String
  status : String
  error : Option String

/-- Embedding of `get_repo_info`: returns the parsed `repos.json` value, `[]`
on `FileNotFoundError` or `json.JSONDecodeError`; any other exception (for
example `PermissionError`) is not caught and propagates. -/
def get_repo_info (fs : FS) : Except PyError Json :=
  match fs.descriptor with
  | .missing => .ok (Json.arr [])
  | .invalidJson => .ok (Json.arr [])
  | .permissionDenied => .error (.ioError (.permissionDenied CONFIG_repos_file))
  | .validJson v => .ok v

/-- Embedding of `get_log_files`: empty when the repository subdirectory does
not exist, otherwise the `*.log` entries sorted descending. -/
def get_log_files (fs : FS) (repo_name : String) : List LogFileEnt :=
  match lookupDir fs.dirs repo_name with
  | none => []
  | some entries => sortDescByName (entries.filter (fun e => globMatchesLog e.name))

/-- Embedding of `parse_log_file`: a total function; a successful read yields
content and a status derived by scanning for `failed=0`, a failed read yields
an error record. -/
def parse_log_file (f : LogFileEnt) : LogRecord :=
  match f.readResult with
  | .ok content =>
      { filename := f.name
        timestamp := some f.mtimeStr
        size := some f.size
        content := some content
        status := if pyInStr "failed=0" content then "success" else "failed"
        error := none }
  | .error e =>
      { filename := f.name
        timestamp := none
        size := none
        content := none
        status := "error"
        error := some e.message }

/-- Embedding of the `/api/logs/<repo_name>` handler body. -/
def get_logs (fs : FS) (repo_name : String) : List LogRecord :=
  (get_log_files fs repo_name).map parse_log_file

/-- Python `len(x)` on a JSON value: defined for lists, dicts and strings,
`TypeError` otherwise. -/
def pyLen : Json → Except PyError Nat
  | .arr xs => .ok xs.length
  | .obj kvs => .ok kvs.length
  | .str s => .ok s.length
  | _ => .error (.typeError "object has no len")

/-- Python iteration over a JSON value: list elements, dict keys, string
characters; `TypeError` otherwise. -/
def pyIter : Json → Except PyError (List Json)
  | .arr xs => .ok xs
  | .obj kvs => .ok (kvs.map (fun kv => Json.str kv.1))
  | .str s => .ok (s.data.map (fun c => Json.str (String.mk [c])))
  | _ => .error (.typeError "object is not iterable")

/-- Key lookup in a parsed JSON object. -/
def lookupKey : List (String × Json) → String → Option Json
  | [], _ => none
  | (k, v) :: rest, key => if k = key then some v else lookupKey rest key

/-- The Python expression `x[key]` for a string key: succeeds only on a dict
containing the key (`KeyError` when the key is absent, `TypeError` when the
value is not a dict). -/
def pySubscript (j : Json) (key : String) : Except PyError Json :=
  match j with
  | .obj kvs =>
      match lookupKey kvs key with
      | some v => .ok v
      | none => .error (.keyError key)
  | _ => .error (.typeError "object is not subscriptable")

/-- Coercion of a JSON value to the string that `os.path.join` requires;
`TypeError` otherwise. -/
def asPathStr : Json → Except PyError String
  | .str s => .ok s
  | _ => .error (.typeError "join argument must be str")

/-- The `stats` accumulator dict of `get_stats`. -/
structure Stats where
  total_repos : Nat
  total_logs : Nat
  successful_runs : Nat
  failed_runs : Nat

/-- The inline classification of one readable log's content in `get_stats`
(lines 84-88 of the source): a duplicate of the parser's marker scan, not a
call to `parse_log_file`. -/
def countRun (acc : Stats) (content : String) : Stats :=
  if pyInStr "failed=0" content then
    { acc with successful_runs := acc.successful_runs + 1 }
  else
    { acc with failed_runs := acc.failed_runs + 1 }

/-- The `open(log_file, 'r').read()` of `get_stats`: unlike `parse_log_file`
it is not wrapped in a `try`, so a read failure propagates. -/
def readContent (ent : LogFileEnt) : Except PyError String :=
  match ent.readResult with
  | .ok c => .ok c
  | .error e => .error (.ioError e)

/-- The inner loop of `get_stats` over one repository's log files; a read
failure escapes the loop. -/
def statsFiles : List LogFileEnt → Stats → Except PyError Stats
  | [], acc => .ok acc
  | f :: rest, acc =>
      match readContent f with
      | .error e => .error e
      | .ok content => statsFiles rest (countRun acc content)

/-- The outer loop of `get_stats` over the descriptor's repositories:
`repo['name']` is accessed, joined into a path, its log files listed and
counted, then each file is reopened and classified inline; any exception
escapes the loop. -/
def statsRepos (fs : FS) : List Json → Stats → Except PyError Stats
  | [], acc => .ok acc
  | repo :: rest, acc =>
      match pySubscript repo "name" with
      | .error e => .error e
      | .ok nameVal =>
          match asPathStr nameVal with
          | .error e => .error e
          | .ok name =>
              let files := get_log_files fs name
              match statsFiles files { acc with total_logs := acc.total_logs + files.length } with
              | .error e => .error e
              | .ok acc2 => statsRepos fs rest acc2

/-- Embedding of the `/api/stats` handler: list repositories, take `len`,
iterate, and fold the two loops over an all-zero accumulator. -/
def get_stats (fs : FS) : Except PyError Stats :=
  match get_repo_info fs with
  | .error e => .error e
  | .ok repos =>
      match pyLen repos with
      | .error e => .error e
      | .ok n =>
          match pyIter repos with
          | .error e => .error e
          | .ok items =>
              statsRepos fs items
                { total_repos := n, total_logs := 0, successful_runs := 0, failed_runs := 0 }

/-! Sample filesystem objects used by the concrete instantiations below. -/

/-- A log entry whose read fails with `FileNotFoundError`. -/
def entMissing : LogFileEnt :=
  { name := "2024-01-01.log"
    readResult := .error (.fileNotFound "/etc/ansible/playbooks/logs/web/2024-01-01.log")
    mtimeStr := ""
    size := 0 }

/-- A log entry whose content contains the marker `failed=0`. -/
def entPass : LogFileEnt :=
  { name := "2024-01-02.log"
    readResult := .ok "PLAY RECAP\nweb : ok=5 changed=1 unreachable=0 failed=0\n"
    mtimeStr := "2024-01-02 00:00:00"
    size := 54 }

/-- A log entry whose content lacks the marker `failed=0`. -/
def entFail : LogFileEnt :=
  { name := "2024-01-03.log"
    readResult := .ok "PLAY RECAP\nweb : ok=5 changed=1 unreachable=0 failed=2\n"
    mtimeStr := "2024-01-03 00:00:00"
    size := 54 }

/-! Correspondence of the executable substring scan with `List.IsInfix`. -/

/-- The boolean prefix test agrees with `List.IsPrefix`. -/
theorem isPrefixCL_iff : ∀ (as bs : List Char), isPrefixCL as bs = true ↔ as <+: bs
  | [], bs => by simp [isPrefixCL]
  | _ :: _, [] => by simp [isPrefixCL]
  | a :: as, b :: bs => by
      simp [isPrefixCL, List.cons_prefix_cons, isPrefixCL_iff as bs, Bool.and_eq_true,
        beq_iff_eq, And.comm]

/-- The boolean substring scan agrees with `List.IsInfix`. -/
theorem hasInfixCL_iff (pat : List Char) : ∀ (s : List Char), hasInfixCL pat s = true ↔ pat <:+: s
  | [] => by simp [hasInfixCL, List.infix_nil, List.isEmpty_iff]
  | c :: rest => by
      simp [hasInfixCL, List.infix_cons_iff, isPrefixCL_iff, hasInfixCL_iff pat rest,
        Bool.or_eq_true]

/-- Claim C1: on a successful read, `parse_log_file` yields status `success` exactly
when the content contains the substring `failed=0`, and `failed` otherwise. -/
theorem parse_status_iff_marker (f : LogFileEnt) (content : String)
    (h : f.readResult = .ok content) :
    ((parse_log_file f).status = "success" ↔ "failed=0".data <:+: content.data) ∧
    ((parse_log_file f).status = "failed" ↔ ¬ "failed=0".data <:+: content.data) := by
  have hiff := hasInfixCL_iff "failed=0".data content.data
  cases hb : hasInfixCL "failed=0".data content.data with
  | false =>
      rw [hb] at hiff
      simp [parse_log_file, h, pyInStr, hb, ← hiff]
  | true =>
      rw [hb] at hiff
      simp [parse_log_file, h, pyInStr, hb, ← hiff]

/-- Claim C1 instantiated: a concrete readable log with the marker is classified
`success`, via `parse_status_iff_marker`. -/
theorem parse_status_iff_marker_witness :
    entPass.readResult = .ok "PLAY RECAP\nweb : ok=5 changed=1 unreachable=0 failed=0\n" ∧
    ((parse_log_file entPass).status = "success" ↔
      "failed=0".data <:+: "PLAY RECAP\nweb : ok=5 changed=1 unreachable=0 failed=0\n".data) :=
  ⟨rfl, (parse_status_iff_marker entPass _ rfl).1⟩

/-- Every `str(e)` message produced by a read failure is non-empty. -/
theorem message_ne_empty (e : ReadError) : e.message ≠ "" := by
  have key : ∀ (s t : String), 0 < s.length → s ++ t ≠ "" := by
    intro s t hs h
    have hl := congrArg String.length h
    rw [String.length_append, String.length_empty] at hl
    omega
  cases e with
  | fileNotFound p => exact key _ p (by decide)
  | permissionDenied p => exact key _ p (by decide)
  | decodeError p => exact key _ p (by decide)

/-- Claim C3: `parse_log_file` is total by type, and on any failed read it returns a
record with status `error` and a non-empty error message. -/
theorem parse_error_total (f : LogFileEnt) (e : ReadError)
    (h : f.readResult = .error e) :
    (parse_log_file f).status = "error" ∧
    (parse_log_file f).error = some e.message ∧ e.message ≠ "" := by
  refine ⟨?_, ?_, message_ne_empty e⟩ <;> simp [parse_log_file, h]

/-- Claim C3 instantiated: a concrete missing file yields an error record with a
non-empty message, via `parse_error_total`. -/
theorem parse_error_total_witness :
    entMissing.readResult =
      .error (.fileNotFound "/etc/ansible/playbooks/logs/web/2024-01-01.log") ∧
    ((parse_log_file entMissing).status = "error" ∧
      (parse_log_file entMissing).error =
        some (ReadError.fileNotFound "/etc/ansible/playbooks/logs/web/2024-01-01.log").message ∧
      (ReadError.fileNotFound "/etc/ansible/playbooks/logs/web/2024-01-01.log").message ≠ "") :=
  ⟨rfl, parse_error_total entMissing _ rfl⟩

/-- Claim C8: every record produced by `parse_log_file` populates exactly one of the
fields content and error: content on a successful read, error on a failure. -/
theorem parse_exactly_one_of_content_error (f : LogFileEnt) :
    ((parse_log_file f).content ≠ none ∧ (parse_log_file f).error = none) ∨
    ((parse_log_file f).content = none ∧ (parse_log_file f).error ≠ none) := by
  cases h : f.readResult <;> simp [parse_log_file, h]

/-- Claim C9: the inline classification of `get_stats` agrees with the status
`parse_log_file` assigns to the same readable content: it increments
`successful_runs` exactly when the parser says `success`, and `failed_runs`
exactly when the parser says `failed`. -/
theorem stats_inline_classifier_agrees (acc : Stats) (f : LogFileEnt) (content : String)
    (h : f.readResult = .ok content) :
    ((countRun acc content).successful_runs = acc.successful_runs + 1 ↔
      (parse_log_file f).status = "success") ∧
    ((countRun acc content).failed_runs = acc.failed_runs + 1 ↔
      (parse_log_file f).status = "failed") := by
  cases hb : pyInStr "failed=0" content <;>
    simp [countRun, parse_log_file, h, hb]

/-- Claim C9 instantiated: on a concrete marker-free content both the inline
classifier and the parser say `failed`, via `stats_inline_classifier_agrees`. -/
theorem stats_inline_classifier_agrees_witness :
    entFail.readResult = .ok "PLAY RECAP\nweb : ok=5 changed=1 unreachable=0 failed=2\n" ∧
    ((countRun ⟨2, 5, 3, 1⟩ "PLAY RECAP\nweb : ok=5 changed=1 unreachable=0 failed=2\n").failed_runs
        = (1 : Nat) + 1 ↔
      (parse_log_file entFail).status = "failed") :=
  ⟨rfl, (stats_inline_classifier_agrees ⟨2, 5, 3, 1⟩ entFail _ rfl).2⟩

/-- A filesystem with one existing repository directory that holds no file
matching `*.log`, and no other directories. -/
def fsNoMatch : FS :=
  { descriptor := .missing
    dirs := [("empty", [{ name := "readme.txt", readResult := .ok "", mtimeStr := "", size := 0 }])] }

/-- Claim C6: `get_log_files` returns `[]` both for a repository whose directory
does not exist and for one whose directory exists with no matching file, so
the two cases are observably identical to the caller. -/
theorem log_files_empty_cases (fs : FS) (repo : String) :
    (lookupDir fs.dirs repo = none → get_log_files fs repo = []) ∧
    (∀ entries, lookupDir fs.dirs repo = some entries →
      entries.filter (fun e => globMatchesLog e.name) = [] →
      get_log_files fs repo = []) := by
  constructor
  · intro h
    simp [get_log_files, h]
  · intro entries h hf
    simp [get_log_files, h, hf, sortDescByName]

/-- Claim C6 instantiated: a concrete absent directory and a concrete matching-file-
free directory both give `[]`, via `log_files_empty_cases`. -/
theorem log_files_empty_cases_witness :
    get_log_files fsNoMatch "absent" = [] ∧ get_log_files fsNoMatch "empty" = [] :=
  ⟨(log_files_empty_cases fsNoMatch "absent").1 rfl,
   (log_files_empty_cases fsNoMatch "empty").2 _ rfl rfl⟩

/-- Claim C7 counterexample: an unreadable (permission-denied) descriptor makes
`get_repo_info` propagate the exception instead of returning the empty list,
refuting the claim for the unreadable case. -/
theorem repo_info_unreadable_raises :
    get_repo_info ⟨.permissionDenied, []⟩ =
      .error (.ioError (.permissionDenied "/etc/ansible/playbooks/repos.json")) := rfl

/-- Claim C7 amended: a missing or JSON-malformed descriptor yields the empty list,
but an unreadable descriptor propagates an exception. -/
theorem repo_info_degrades_only_caught_cases (dirs : List (String × List LogFileEnt)) :
    get_repo_info ⟨.missing, dirs⟩ = .ok (Json.arr []) ∧
    get_repo_info ⟨.invalidJson, dirs⟩ = .ok (Json.arr []) ∧
    ∃ e, get_repo_info ⟨.permissionDenied, dirs⟩ = .error e :=
  ⟨rfl, rfl, ⟨_, rfl⟩⟩

/-- Claim C10: a valid-JSON descriptor is returned verbatim with no shape check;
the `repo['name']` subscript succeeds exactly on a dict containing the key
`name`; and on the valid-JSON descriptor `[42]`, which violates that
precondition, `get_stats` raises a `TypeError`. -/
theorem descriptor_passthrough_subscript_unsafe (v : Json)
    (dirs : List (String × List LogFileEnt)) :
    get_repo_info ⟨.validJson v, dirs⟩ = .ok v ∧
    (∀ j : Json, (∃ x, pySubscript j "name" = .ok x) ↔
      ∃ kvs, j = Json.obj kvs ∧ (lookupKey kvs "name").isSome = true) ∧
    get_stats ⟨.validJson (Json.arr [Json.num 42]), dirs⟩ =
      .error (.typeError "object is not subscriptable") := by
  refine ⟨rfl, ?_, rfl⟩
  intro j
  constructor
  · rintro ⟨x, hx⟩
    cases j with
    | obj kvs =>
        cases hk : lookupKey kvs "name" with
        | none => simp [pySubscript, hk] at hx
        | some w => exact ⟨kvs, rfl, by simp [hk]⟩
    | null => simp [pySubscript] at hx
    | bool b => simp [pySubscript] at hx
    | num n => simp [pySubscript] at hx
    | str s => simp [pySubscript] at hx
    | arr xs => simp [pySubscript] at hx
  · rintro ⟨kvs, rfl, hk⟩
    rcases Option.isSome_iff_exists.mp hk with ⟨w, hw⟩
    exact ⟨w, by simp [pySubscript, hw]⟩

/-! Order-theoretic facts about the descending sort used by `get_log_files`. -/

/-- A string is determined by its code points. -/
theorem string_data_inj {s t : String} (h : s.data = t.data) : s = t := by
  cases s
  cases t
  exact congrArg String.mk h

/-- Characters are determined by their code points. -/
theorem char_toNat_inj {a b : Char} (h : a.toNat = b.toNat) : a = b :=
  Char.eq_of_val_eq (UInt32.toNat.inj h)

/-- Nothing compares below the empty code-point list. -/
theorem charListLt_nil_right (as : List Char) : charListLt as [] = false := by
  cases as <;> simp [charListLt]

/-- Comparing lists with equal heads compares the tails. -/
theorem charListLt_cons_self (a : Char) (as bs : List Char) :
    charListLt (a :: as) (a :: bs) = charListLt as bs := by
  simp [charListLt]

/-- Comparing lists with distinct heads compares the head code points. -/
theorem charListLt_cons_ne {a b : Char} (hab : a ≠ b) (as bs : List Char) :
    charListLt (a :: as) (b :: bs) = decide (a.toNat < b.toNat) := by
  simp [charListLt, beq_iff_eq, hab]

/-- The comparison is asymmetric. -/
theorem charListLt_asymm : ∀ (as bs : List Char),
    charListLt as bs = true → charListLt bs as = false
  | _, [], h => by rw [charListLt_nil_right] at h; cases h
  | [], _ :: _, _ => charListLt_nil_right _
  | a :: as, b :: bs, h => by
      by_cases hab : a = b
      · subst hab
        rw [charListLt_cons_self] at h ⊢
        exact charListLt_asymm as bs h
      · have hba : b ≠ a := fun e => hab e.symm
        rw [charListLt_cons_ne hab] at h
        rw [charListLt_cons_ne hba]
        simp only [decide_eq_true_eq] at h
        simp only [decide_eq_false_iff_not]
        omega

/-- The comparison is total on distinct lists. -/
theorem charListLt_total_of_ne : ∀ (as bs : List Char), as ≠ bs →
    charListLt as bs = true ∨ charListLt bs as = true
  | [], [], h => absurd rfl h
  | [], _ :: _, _ => Or.inl (by simp [charListLt])
  | _ :: _, [], _ => Or.inr (by simp [charListLt])
  | a :: as, b :: bs, h => by
      by_cases hab : a = b
      · subst hab
        have hne : as ≠ bs := fun e => h (by rw [e])
        rcases charListLt_total_of_ne as bs hne with h1 | h1
        · exact Or.inl (by simp [charListLt, h1])
        · exact Or.inr (by simp [charListLt, h1])
      · have htn : a.toNat ≠ b.toNat := fun e => hab (char_toNat_inj e)
        have hba : ¬ b = a := fun e => hab e.symm
        rcases Nat.lt_or_ge a.toNat b.toNat with hlt | hge
        · exact Or.inl (by simp [charListLt, beq_iff_eq, hab, hlt])
        · have hgt : b.toNat < a.toNat :=
            Nat.lt_of_le_of_ne hge (fun e => htn e.symm)
          exact Or.inr (by simp [charListLt, beq_iff_eq, hba, hgt])

/-- Not-below is transitive. -/
theorem charListLt_ge_trans : ∀ (as bs cs : List Char),
    charListLt as bs = false → charListLt bs cs = false → charListLt as cs = false
  | as, _, [], _, _ => charListLt_nil_right as
  | _, [], _ :: _, _, h2 => by simp [charListLt] at h2
  | [], _ :: _, _ :: _, h1, _ => by simp [charListLt] at h1
  | a :: as, b :: bs, c :: cs, h1, h2 => by
      by_cases hab : a = b
      · subst hab
        by_cases hac : a = c
        · subst hac
          rw [charListLt_cons_self] at h1 h2 ⊢
          exact charListLt_ge_trans as bs cs h1 h2
        · rw [charListLt_cons_ne hac] at h2 ⊢
          exact h2
      · by_cases hbc : b = c
        · subst hbc
          rw [charListLt_cons_ne hab] at h1 ⊢
          exact h1
        · rw [charListLt_cons_ne hab] at h1
          rw [charListLt_cons_ne hbc] at h2
          simp only [decide_eq_false_iff_not] at h1 h2
          by_cases hac : a = c
          · subst hac
            have hba : b.toNat = a.toNat := by omega
            exact absurd (char_toNat_inj hba).symm hab
          · rw [charListLt_cons_ne hac]
            simp only [decide_eq_false_iff_not]
            omega

/-- The descending relation maintained by the sort: the left name is not below
the right one. -/
def nameGe (a b : LogFileEnt) : Prop :=
  charListLt a.name.data b.name.data = false

/-- Inserting permutes: the result is the element plus the old list. -/
theorem insertDesc_perm (x : LogFileEnt) : ∀ l : List LogFileEnt,
    (insertDesc x l).Perm (x :: l)
  | [] => by simp [insertDesc]
  | y :: ys => by
      cases h : charListLt x.name.data y.name.data with
      | true =>
          simp only [insertDesc, h, if_true]
          exact ((insertDesc_perm x ys).cons y).trans (List.Perm.swap x y ys)
      | false => simp [insertDesc, h]

/-- Sorting permutes. -/
theorem sortDesc_perm : ∀ l : List LogFileEnt, (sortDescByName l).Perm l
  | [] => List.Perm.refl _
  | x :: xs => (insertDesc_perm x (sortDescByName xs)).trans ((sortDesc_perm xs).cons x)

/-- Inserting into a descending list keeps it descending. -/
theorem insertDesc_pairwise (x : LogFileEnt) : ∀ l : List LogFileEnt,
    l.Pairwise nameGe → (insertDesc x l).Pairwise nameGe
  | [], _ => by simp [insertDesc, nameGe]
  | y :: ys, h => by
      rcases List.pairwise_cons.mp h with ⟨hy, hys⟩
      cases hc : charListLt x.name.data y.name.data with
      | true =>
          simp only [insertDesc, hc, if_true]
          refine List.pairwise_cons.mpr ⟨?_, insertDesc_pairwise x ys hys⟩
          intro z hz
          rcases List.mem_cons.mp ((insertDesc_perm x ys).mem_iff.mp hz) with rfl | hz2
          · exact charListLt_asymm _ _ hc
          · exact hy z hz2
      | false =>
          simp only [insertDesc, hc, if_false]
          refine List.pairwise_cons.mpr ⟨?_, h⟩
          intro z hz
          rcases List.mem_cons.mp hz with rfl | hz2
          · exact hc
          · exact charListLt_ge_trans _ _ _ hc (hy z hz2)

/-- The sort output is descending (weakly, by the boolean comparison). -/
theorem sortDesc_pairwise : ∀ l : List LogFileEnt, (sortDescByName l).Pairwise nameGe
  | [] => List.Pairwise.nil
  | x :: xs => insertDesc_pairwise x _ (sortDesc_pairwise xs)

/-- The boolean comparison agrees with strict lexicographic order on code
points. -/
theorem charListLt_iff_lex : ∀ (as bs : List Char),
    charListLt as bs = true ↔ List.Lex (fun c d : Char => c.toNat < d.toNat) as bs
  | as, [] => by
      rw [charListLt_nil_right]
      exact iff_of_false (by simp) (fun hl => by cases hl)
  | [], b :: bs => iff_of_true (by simp [charListLt]) List.Lex.nil
  | a :: as, b :: bs => by
      by_cases hab : a = b
      · subst hab
        rw [charListLt_cons_self]
        constructor
        · intro h
          exact List.Lex.cons ((charListLt_iff_lex as bs).mp h)
        · intro hl
          cases hl with
          | cons h => exact (charListLt_iff_lex as bs).mpr h
          | rel h => exact absurd h (Nat.lt_irrefl _)
      · rw [charListLt_cons_ne hab]
        simp only [decide_eq_true_eq]
        constructor
        · intro h
          exact List.Lex.rel h
        · intro hl
          cases hl with
          | cons h => exact absurd rfl hab
          | rel h => exact h

/-- A repository directory holding three timestamped logs listed out of
order, with distinct names. -/
def fsThreeLogs : FS :=
  { descriptor := .missing
    dirs := [("web",
      [ { name := "2024-01-01.log", readResult := .ok "failed=0", mtimeStr := "", size := 8 },
        { name := "2024-01-03.log", readResult := .ok "failed=0", mtimeStr := "", size := 8 },
        { name := "2024-01-02.log", readResult := .ok "failed=1", mtimeStr := "", size := 8 } ])] }

/-- Claim C5: when the directory's filenames are distinct, `get_log_files`
returns them strictly descending in the lexicographic (code-point) order on
filenames, so the newest timestamp-prefixed log sits at index 0. -/
theorem log_files_strictly_descending (fs : FS) (repo : String)
    (h : ∀ entries, lookupDir fs.dirs repo = some entries →
      (entries.map (fun e => e.name)).Nodup) :
    (get_log_files fs repo).Pairwise
      (fun a b => List.Lex (fun c d : Char => c.toNat < d.toNat) b.name.data a.name.data) := by
  unfold get_log_files
  cases hd : lookupDir fs.dirs repo with
  | none => simp
  | some entries =>
      have hnd : (entries.map (fun e => e.name)).Nodup := h entries hd
      have hfsub : (entries.filter (fun e => globMatchesLog e.name)).Sublist entries :=
        List.filter_sublist entries
      have hnd2 : ((entries.filter (fun e => globMatchesLog e.name)).map
          (fun e => e.name)).Nodup :=
        hnd.sublist (hfsub.map _)
      have hperm :
          (sortDescByName (entries.filter (fun e => globMatchesLog e.name))).Perm
            (entries.filter (fun e => globMatchesLog e.name)) :=
        sortDesc_perm _
      have hnd3 : ((sortDescByName (entries.filter (fun e => globMatchesLog e.name))).map
          (fun e => e.name)).Nodup :=
        ((hperm.map _).nodup_iff).mpr hnd2
      have hpne :
          (sortDescByName (entries.filter (fun e => globMatchesLog e.name))).Pairwise
            (fun a b => a.name ≠ b.name) := by
        simpa [List.Nodup, List.pairwise_map] using hnd3
      have hge :
          (sortDescByName (entries.filter (fun e => globMatchesLog e.name))).Pairwise nameGe :=
        sortDesc_pairwise _
      refine (hge.and hpne).imp ?_
      rintro a b ⟨h1, h2⟩
      have hdne : a.name.data ≠ b.name.data := fun e => h2 (string_data_inj e)
      rcases charListLt_total_of_ne _ _ hdne with ht | ht
      · rw [nameGe] at h1
        rw [h1] at ht
        cases ht
      · exact (charListLt_iff_lex _ _).mp ht

/-- Claim C5 instantiated: three distinct concrete filenames come back
strictly descending, via `log_files_strictly_descending`. -/
theorem log_files_strictly_descending_witness :
    (∀ entries, lookupDir fsThreeLogs.dirs "web" = some entries →
      (entries.map (fun e => e.name)).Nodup) ∧
    (get_log_files fsThreeLogs "web").Pairwise
      (fun a b => List.Lex (fun c d : Char => c.toNat < d.toNat) b.name.data a.name.data) :=
  ⟨fun entries he => by cases he; decide,
   log_files_strictly_descending fsThreeLogs "web" (fun entries he => by cases he; decide)⟩

/-! Aggregation facts for `get_stats`. -/

/-- One inline classification adds exactly one run to exactly one bucket and
touches nothing else. -/
theorem countRun_counts (acc : Stats) (c : String) :
    (countRun acc c).total_repos = acc.total_repos ∧
    (countRun acc c).total_logs = acc.total_logs ∧
    (countRun acc c).successful_runs + (countRun acc c).failed_runs =
      acc.successful_runs + acc.failed_runs + 1 := by
  by_cases h : pyInStr "failed=0" c <;> simp [countRun, h] <;> omega

/-- When every file of the batch is readable, the inner loop succeeds and adds
the batch size to the two run buckets combined, leaving the other counters
unchanged. -/
theorem statsFiles_ok : ∀ (files : List LogFileEnt) (acc : Stats),
    (∀ f ∈ files, ∃ c, f.readResult = .ok c) →
    ∃ st, statsFiles files acc = .ok st ∧
      st.total_repos = acc.total_repos ∧
      st.total_logs = acc.total_logs ∧
      st.successful_runs + st.failed_runs =
        acc.successful_runs + acc.failed_runs + files.length
  | [], acc, _ => ⟨acc, rfl, rfl, rfl, rfl⟩
  | f :: rest, acc, h => by
      rcases h f (List.mem_cons_self f rest) with ⟨c, hc⟩
      have hrest : ∀ g ∈ rest, ∃ d, g.readResult = .ok d :=
        fun g hg => h g (List.mem_cons_of_mem f hg)
      rcases statsFiles_ok rest (countRun acc c) hrest with ⟨st, hst, h1, h2, h3⟩
      rcases countRun_counts acc c with ⟨k1, k2, k3⟩
      refine ⟨st, ?_, ?_, ?_, ?_⟩
      · simp [statsFiles, readContent, hc, hst]
      · rw [h1, k1]
      · rw [h2, k2]
      · rw [h3, k3]
        simp [List.length_cons]
        omega

/-- When every listed repository resolves to a string name and every one of
its log files is readable, the outer loop succeeds, keeps `total_repos`, and
preserves the invariant `total_logs = successful_runs + failed_runs`. -/
theorem statsRepos_ok (fs : FS) : ∀ (items : List Json) (acc : Stats),
    (∀ r ∈ items, ∃ s, pySubscript r "name" = .ok (Json.str s) ∧
      ∀ f ∈ get_log_files fs s, ∃ c, f.readResult = .ok c) →
    acc.total_logs = acc.successful_runs + acc.failed_runs →
    ∃ st, statsRepos fs items acc = .ok st ∧
      st.total_repos = acc.total_repos ∧
      st.total_logs = st.successful_runs + st.failed_runs
  | [], acc, _, hinv => ⟨acc, rfl, rfl, hinv⟩
  | repo :: rest, acc, h, hinv => by
      rcases h repo (List.mem_cons_self repo rest) with ⟨s, hs, hread⟩
      have hrest : ∀ r ∈ rest, ∃ t, pySubscript r "name" = .ok (Json.str t) ∧
          ∀ f ∈ get_log_files fs t, ∃ c, f.readResult = .ok c :=
        fun r hr => h r (List.mem_cons_of_mem repo hr)
      rcases statsFiles_ok (get_log_files fs s)
          { acc with total_logs := acc.total_logs + (get_log_files fs s).length } hread with
        ⟨st1, hst1, g1, g2, g3⟩
      have hinv1 : st1.total_logs = st1.successful_runs + st1.failed_runs := by
        rw [g2, g3]
        simp only []
        omega
      rcases statsRepos_ok fs rest st1 hrest hinv1 with ⟨st, hst, k1, k2⟩
      refine ⟨st, ?_, ?_, k2⟩
      · simp [statsRepos, hs, asPathStr, hst1, hst]
      · rw [k1, g1]

/-- Claim C4: on a well-formed descriptor whose repositories all have readable
logs (so every file is classified success or failed), `get_stats` returns a
Stats with `total_logs = successful_runs + failed_runs`, and `total_repos` is
the descriptor's repository count regardless of how many logs exist. -/
theorem stats_invariant (fs : FS) (repos : List Json)
    (hd : fs.descriptor = .validJson (Json.arr repos))
    (h : ∀ r ∈ repos, ∃ s, pySubscript r "name" = .ok (Json.str s) ∧
      ∀ f ∈ get_log_files fs s, ∃ c, f.readResult = .ok c) :
    ∃ st, get_stats fs = .ok st ∧
      st.total_repos = repos.length ∧
      st.total_logs = st.successful_runs + st.failed_runs := by
  rcases statsRepos_ok fs repos
      { total_repos := repos.length, total_logs := 0, successful_runs := 0, failed_runs := 0 }
      h rfl with ⟨st, hst, h1, h2⟩
  refine ⟨st, ?_, h1, h2⟩
  simp [get_stats, get_repo_info, hd, pyLen, pyIter, hst]

/-- A well-formed two-repository descriptor with no log directories at all. -/
def fsTwoReposNoLogs : FS :=
  { descriptor := .validJson (Json.arr
      [Json.obj [("name", Json.str "alpha")], Json.obj [("name", Json.str "beta")]])
    dirs := [] }

/-- Claim C4 instantiated: two repositories with zero logs give a complete
Stats with `total_repos = 2` and `0 = 0 + 0`, via `stats_invariant`. -/
theorem stats_invariant_witness :
    fsTwoReposNoLogs.descriptor = .validJson (Json.arr
      [Json.obj [("name", Json.str "alpha")], Json.obj [("name", Json.str "beta")]]) ∧
    ∃ st, get_stats fsTwoReposNoLogs = .ok st ∧
      st.total_repos = 2 ∧
      st.total_logs = st.successful_runs + st.failed_runs :=
  ⟨rfl, stats_invariant fsTwoReposNoLogs
    [Json.obj [("name", Json.str "alpha")], Json.obj [("name", Json.str "beta")]] rfl
    (by
      intro r hr
      rcases List.mem_cons.mp hr with rfl | hr2
      · exact ⟨"alpha", rfl, by intro f hf; simp [get_log_files, lookupDir] at hf⟩
      · rcases List.mem_cons.mp hr2 with rfl | hr3
        · exact ⟨"beta", rfl, by intro f hf; simp [get_log_files, lookupDir] at hf⟩
        · cases hr3)⟩

/-- An unreadable log entry (permission denied on open). -/
def entDenied : LogFileEnt :=
  { name := "2024-01-04.log"
    readResult := .error (.permissionDenied "/etc/ansible/playbooks/logs/web/2024-01-04.log")
    mtimeStr := ""
    size := 0 }

/-- A filesystem with one well-formed repository whose only log file is
unreadable. -/
def fsDenied : FS :=
  { descriptor := .validJson (Json.arr [Json.obj [("name", Json.str "web")]])
    dirs := [("web", [entDenied])] }

/-- Claim C2 counterexample: with a single unreadable log file, `get_stats`
does not classify it into `failed_runs` and does not return a Stats object at
all; the read exception propagates and aborts the aggregation. -/
theorem stats_unreadable_aborts_cex :
    get_stats fsDenied =
      .error (.ioError (.permissionDenied
        "/etc/ansible/playbooks/logs/web/2024-01-04.log")) := rfl

/-- Claim C2 amended: an unreadable log file is never classified; `get_stats`
propagates the read exception and aborts, while a readable file whose content
lacks the marker is the one counted into `failed_runs`. -/
theorem stats_unreadable_aborts (rname : String) (ent : LogFileEnt) (e : ReadError)
    (hm : globMatchesLog ent.name = true)
    (hr : ent.readResult = .error e) :
    get_stats { descriptor := .validJson (Json.arr [Json.obj [("name", Json.str rname)]]),
                dirs := [(rname, [ent])] } = .error (.ioError e) ∧
    (∀ (acc : Stats) (content : String), pyInStr "failed=0" content = false →
      (countRun acc content).failed_runs = acc.failed_runs + 1) := by
  constructor
  · simp [get_stats, get_repo_info, pyLen, pyIter, statsRepos, pySubscript, lookupKey,
      asPathStr, get_log_files, lookupDir, hm, sortDescByName, insertDesc, statsFiles,
      readContent, hr]
  · intro acc content hc
    simp [countRun, hc]

/-- Claim C2 amended, instantiated: the concrete unreadable log of `fsDenied`
aborts `get_stats` with the permission error, via `stats_unreadable_aborts`. -/
theorem stats_unreadable_aborts_witness :
    globMatchesLog entDenied.name = true ∧
    entDenied.readResult = .error (.permissionDenied
      "/etc/ansible/playbooks/logs/web/2024-01-04.log") ∧
    get_stats { descriptor := .validJson (Json.arr [Json.obj [("name", Json.str "web")]]),
                dirs := [("web", [entDenied])] } =
      .error (.ioError (.permissionDenied
        "/etc/ansible/playbooks/logs/web/2024-01-04.log")) :=
  ⟨rfl, rfl,
   (stats_unreadable_aborts "web" entDenied
     (.permissionDenied "/etc/ansible/playbooks/logs/web/2024-01-04.log") rfl rfl).1⟩
